import Mathlib

/-!
# Verification of the pydoll HAR recorder and cross-context routing core

A shallow embedding of `pydoll/browser/requests/har_recorder.py` and the
routing / iframe-walk logic of `pydoll/elements/mixins/find_elements_mixin.py`.

Python floats are modelled as rationals (`ℚ`), Python ints as `ℤ`/`ℕ`,
CDP header dicts as association lists of string pairs, and the recorder's
mutable `_pending` / `_data_received_sizes` dicts as association lists with
Python-dict update semantics (update in place, append new keys at the end).
The seven CDP network event handlers become a pure `step` function on a
recorder state; the asynchronous body-fetch task spawned by
`loadingFinished` is merged into its step, with the fetched body carried on
the event (the fetch failure case is the empty body with `base64 = false`).
-/

namespace Pydoll

abbrev Headers := List (String × String)

/-- Python `round(q, n)` modelled on rationals: round `q` to `n` decimal
digits (tie behaviour of floats is abstracted as round-half-up). -/
def roundTo (n : ℕ) (q : ℚ) : ℚ :=
  ((round (q * 10 ^ n) : ℤ) : ℚ) / 10 ^ n

/-- `d.get(k)` on a Python dict modelled as an association list. -/
def alistLookup {α : Type} (k : String) (l : List (String × α)) : Option α :=
  (l.find? (fun p => p.1 == k)).map (·.2)

/-- `d[k] = v` on a Python dict: replace the value in place if the key is
present, else append the new binding at the end (dict insertion order). -/
def alistSet {α : Type} (k : String) (v : α) : List (String × α) → List (String × α)
  | [] => [(k, v)]
  | p :: rest => if p.1 == k then (k, v) :: rest else p :: alistSet k v rest

/-- `d.pop(k, default)`'s removal effect: drop the first binding of `k`. -/
def alistErase {α : Type} (k : String) (l : List (String × α)) : List (String × α) :=
  l.eraseP (fun p => p.1 == k)

/-- `headers.get(name, default)` on a CDP headers dict. -/
def getHeaderD (hs : Headers) (k d : String) : String :=
  ((hs.find? (fun p => p.1 == k)).map (·.2)).getD d

/-! ## HAR 1.2 data model (from `pydoll/protocol/network/har_types.py`) -/

/-- `HarTimings`: timing info about a request/response round trip. -/
structure HarTimings where
  blocked : ℚ
  dns : ℚ
  connect : ℚ
  ssl : ℚ
  send : ℚ
  wait : ℚ
  receive : ℚ
deriving DecidableEq, Repr

/-- `HarCookie`: cookie used in a request or response (`NotRequired`
fields are `Option`). -/
structure HarCookie where
  name : String
  value : String
  path : Option String := none
  domain : Option String := none
  httpOnly : Option Bool := none
  secure : Option Bool := none
deriving DecidableEq, Repr

/-- `HarHeader`: HTTP header name-value pair. -/
structure HarHeader where
  name : String
  value : String
deriving DecidableEq, Repr

/-- `HarQueryParam`: URL query string parameter. -/
structure HarQueryParam where
  name : String
  value : String
deriving DecidableEq, Repr

/-- `HarPostData`: posted data info (`params` is never set by the recorder). -/
structure HarPostData where
  mimeType : String
  text : String
deriving DecidableEq, Repr

/-- `HarRequest`: detailed info about the request. -/
structure HarRequest where
  method : String
  url : String
  httpVersion : String
  cookies : List HarCookie
  headers : List HarHeader
  queryString : List HarQueryParam
  headersSize : ℤ
  bodySize : ℤ
  postData : Option HarPostData := none
deriving DecidableEq, Repr

/-- `HarContent`: response content body info. -/
structure HarContent where
  size : ℤ
  mimeType : String
  text : Option String := none
  encoding : Option String := none
deriving DecidableEq, Repr

/-- `HarResponse`: detailed info about the response. -/
structure HarResponse where
  status : ℤ
  statusText : String
  httpVersion : String
  cookies : List HarCookie
  headers : List HarHeader
  content : HarContent
  redirectURL : String
  headersSize : ℤ
  bodySize : ℤ
deriving DecidableEq, Repr

/-- `HarEntry`: one exported HTTP request (the always-empty `cache` dict is
omitted; `_resourceType` is the `resourceType` field here). -/
structure HarEntry where
  startedDateTime : String
  time : ℚ
  request : HarRequest
  response : HarResponse
  timings : HarTimings
  serverIPAddress : Option String := none
  connection : Option String := none
  resourceType : Option String := none
deriving DecidableEq, Repr

/-! ## CDP-side input types (fields read by the recorder) -/

/-- The nine `ResourceTiming` keys the recorder reads; a missing key is
`none` (the source supplies per-key defaults via `.get`). -/
structure ResourceTiming where
  dnsStart : Option ℚ := none
  dnsEnd : Option ℚ := none
  connectStart : Option ℚ := none
  connectEnd : Option ℚ := none
  sslStart : Option ℚ := none
  sslEnd : Option ℚ := none
  sendStart : Option ℚ := none
  sendEnd : Option ℚ := none
  receiveHeadersStart : Option ℚ := none
deriving DecidableEq, Repr

/-- A CDP `Response` object as read by `_on_response_received` and
`_finalize_redirect_entry`: fields the source indexes (`response['x']`)
are required, fields it reads with `.get` are `Option`. -/
structure CDPResponse where
  status : ℤ
  statusText : String
  mimeType : String
  headers : Option Headers := none
  protocol : Option String := none
  timing : Option ResourceTiming := none
  remoteIPAddress : Option String := none
  connectionId : Option ℤ := none
  encodedDataLength : Option ℚ := none
deriving DecidableEq, Repr

/-- The recorder's per-request scratch dict (`self._pending[request_id]`).
The seven keys written at creation are required fields; every key that a
later handler may add is an `Option` defaulting to `none`. -/
structure Pending where
  url : String
  method : String
  requestHeaders : Headers
  postData : Option String
  wallTime : ℚ
  resourceType : String
  timestamp : ℚ
  requestHeadersExtra : Option Headers := none
  status : Option ℤ := none
  statusText : Option String := none
  responseHeaders : Option Headers := none
  mimeType : Option String := none
  protocol : Option String := none
  timing : Option ResourceTiming := none
  remoteIp : Option String := none
  connectionId : Option String := none
  encodedDataLength : Option ℚ := none
  responseHeadersExtra : Option Headers := none
  extraStatusCode : Option ℤ := none
  responseTimestamp : Option ℚ := none
  transferSize : Option ℚ := none
  finishedTimestamp : Option ℚ := none
  bodyBytes : Option ℤ := none
  responseBody : Option String := none
  responseBodyBase64 : Option Bool := none
  errorText : Option String := none
  canceled : Option Bool := none
deriving DecidableEq, Repr

end Pydoll

namespace Pydoll

/-! ## Pure builder helpers (`HarRecorder` static methods) -/

/-- `_normalize_http_version`: lowercase `h2`/`h3`/`h2c` pass through,
`http/...` strings are uppercased, anything else becomes `''`. -/
def normalizeHttpVersion (protocol : String) : String :=
  if protocol = "" then ""
  else
    let lower := protocol.toLower
    if lower = "h2" ∨ lower = "h3" ∨ lower = "h2c" then lower
    else if lower.startsWith "http/" then protocol.toUpper
    else ""

/-- `_headers_dict_to_list`: convert a CDP headers dict to a HAR list. -/
def headersDictToList (headers : Headers) : List HarHeader :=
  headers.map (fun p => { name := p.1, value := p.2 })

/-- Modelled from the stdlib call: the query component that
`urllib.parse.urlparse(url).query` extracts — the part after the first
`?` and before the following `#` (simplified: fragment split second). -/
def queryOf (url : String) : String :=
  match url.splitOn "?" with
  | [] => ""
  | [_] => ""
  | _ :: rest => (((String.intercalate "?" rest).splitOn "#").headD "")

/-- `_parse_query_string`, with `urllib.parse.parse_qs` modelled as an
in-order split on `&` then on the first `=` (`keep_blank_values=True`;
the dict re-grouping of repeated names is not reproduced). -/
def parseQueryString (url : String) : List HarQueryParam :=
  let q := queryOf url
  if q = "" then []
  else
    (q.splitOn "&").filterMap fun field =>
      match field.splitOn "=" with
      | [] => none
      | [n] => if n = "" then none else some { name := n, value := "" }
      | n :: vs => some { name := n, value := String.intercalate "=" vs }

/-- `_parse_request_cookies`: parse the `Cookie` header. -/
def parseRequestCookies (headers : Headers) : List HarCookie :=
  let cookieHeader := getHeaderD headers "Cookie" (getHeaderD headers "cookie" "")
  if cookieHeader = "" then []
  else
    (cookieHeader.splitOn ";").filterMap fun rawPair =>
      let stripped := rawPair.trim
      match stripped.splitOn "=" with
      | [] => none
      | [_] => none
      | nm :: vs =>
        let nm := nm.trim
        if nm = "" then none
        else some { name := nm, value := (String.intercalate "=" vs).trim }

/-- Attribute merge loop of `_parse_response_cookies`. -/
def applyCookieAttrs (cookie : HarCookie) : List String → HarCookie
  | [] => cookie
  | rawAttr :: rest =>
    let attrLower := rawAttr.trim.toLower
    let cookie :=
      if attrLower = "httponly" then { cookie with httpOnly := some true }
      else if attrLower = "secure" then { cookie with secure := some true }
      else if attrLower.startsWith "path=" then
        { cookie with path := some (String.intercalate "=" ((attrLower.splitOn "=").drop 1)) }
      else if attrLower.startsWith "domain=" then
        { cookie with domain := some (String.intercalate "=" ((attrLower.splitOn "=").drop 1)) }
      else cookie
    applyCookieAttrs cookie rest

/-- `_parse_response_cookies`: parse `Set-Cookie` headers (one per line). -/
def parseResponseCookies (headers : Headers) : List HarCookie :=
  let setCookie := getHeaderD headers "Set-Cookie" (getHeaderD headers "set-cookie" "")
  if setCookie = "" then []
  else
    (setCookie.splitOn "\n").filterMap fun rawLine =>
      let strippedLine := rawLine.trim
      match strippedLine.splitOn "=" with
      | [] => none
      | [_] => none
      | _ :: _ =>
        let nameValue := (strippedLine.splitOn ";").headD ""
        match nameValue.splitOn "=" with
        | [] => none
        | [_] => none
        | nm :: vs =>
          let nm := nm.trim
          if nm = "" then none
          else
            let cookie : HarCookie := { name := nm, value := (String.intercalate "=" vs).trim }
            some (applyCookieAttrs cookie ((strippedLine.splitOn ";").drop 1))

/-- Modelled from the stdlib call `len(base64.b64decode(body))`: decoded
byte length of a base64 text, `none` when decoding raises (modelled as a
length not divisible by 4; the alphabet check is not reproduced). -/
def b64DecodedSize (s : String) : Option ℤ :=
  if s.length % 4 = 0 then
    some (3 * ((s.length : ℤ) / 4) - ((s.toList.reverse.takeWhile (· == '=')).length : ℤ))
  else none

/-- Modelled from the stdlib call: `_wall_time_to_iso` converts a CDP
wallTime to an ISO 8601 string via `datetime`; the conversion is opaque
to every claim, so it is modelled as an injective-on-nonzero encoding,
with the `datetime.now()` fallback for a falsy wallTime as `"now"`. -/
def wallTimeToIso (wallTime : ℚ) : String :=
  if wallTime = 0 then "now" else toString wallTime

/-- `_build_har_request`. -/
def buildHarRequest (url : String) (p : Pending) (headers : Headers)
    (protocol : String) (postDataText : Option String) : HarRequest :=
  let reqCookies := parseRequestCookies headers
  let base : HarRequest := {
    method := p.method
    url := url
    httpVersion := protocol
    cookies := reqCookies
    headers := headersDictToList headers
    queryString := parseQueryString url
    headersSize := -1
    bodySize :=
      match postDataText with
      | some t => if t = "" then 0 else (t.utf8ByteSize : ℤ)
      | none => 0 }
  match postDataText with
  | some t =>
    if t = "" then base
    else
      { base with postData := some {
          mimeType := getHeaderD headers "Content-Type" (getHeaderD headers "content-type" "")
          text := t } }
  | none => base

/-- `_build_har_response`. -/
def buildHarResponse (p : Pending) (headers : Headers) (protocol : String) : HarResponse :=
  let body := p.responseBody.getD ""
  let isBase64 := p.responseBodyBase64.getD false
  let status := p.extraStatusCode.getD (p.status.getD 0)
  let contentSize : ℤ :=
    if body ≠ "" ∧ isBase64 = true then (b64DecodedSize body).getD (body.length : ℤ)
    else if body ≠ "" then (body.utf8ByteSize : ℤ)
    else 0
  let harContent : HarContent := {
    size := contentSize
    mimeType := p.mimeType.getD ""
    text := if body ≠ "" then some body else none
    encoding := if body ≠ "" ∧ isBase64 = true then some "base64" else none }
  let bodyBytes := p.bodyBytes.getD (-1)
  let bodySize : ℤ :=
    if status = 304 then 0
    else if bodyBytes > 0 then bodyBytes
    else if contentSize > 0 then contentSize
    else -1
  { status := status
    statusText := p.statusText.getD ""
    httpVersion := protocol
    cookies := parseResponseCookies headers
    headers := headersDictToList headers
    content := harContent
    redirectURL := getHeaderD headers "Location" (getHeaderD headers "location" "")
    headersSize := -1
    bodySize := bodySize }

/-- The `_phase` helper inside `_build_har_timings`: a phase needs both
markers `≥ 0`, else it is `-1`. -/
def timingPhase (s e : ℚ) : ℚ :=
  if s ≥ 0 ∧ e ≥ 0 then roundTo 3 (max (e - s) 0) else -1

/-- `_build_har_timings`: convert CDP `ResourceTiming` to HAR timings;
`receiveMs` (from monotonic timestamps) overrides the receive phase. -/
def buildHarTimings (timing : Option ResourceTiming) (receiveMs : Option ℚ) : HarTimings :=
  let rcv : ℚ := match receiveMs with | some x => roundTo 3 x | none => 0
  match timing with
  | none =>
    { blocked := -1, dns := -1, connect := -1, ssl := -1, send := 0, wait := 0, receive := rcv }
  | some t =>
    let dnsS := t.dnsStart.getD (-1)
    let dnsE := t.dnsEnd.getD (-1)
    let conS := t.connectStart.getD (-1)
    let conE := t.connectEnd.getD (-1)
    let sslS := t.sslStart.getD (-1)
    let sslE := t.sslEnd.getD (-1)
    let sndS := t.sendStart.getD 0
    let sndE := t.sendEnd.getD 0
    let rhS := t.receiveHeadersStart.getD 0
    let first := if dnsS ≥ 0 then dnsS else if conS ≥ 0 then conS else sndS
    { blocked := roundTo 3 (max first 0)
      dns := timingPhase dnsS dnsE
      connect := timingPhase conS conE
      ssl := timingPhase sslS sslE
      send := roundTo 3 (max (sndE - sndS) 0)
      wait := roundTo 3 (max (rhS - sndE) 0)
      receive := rcv }

/-- The `if pending.get(key, '')` truthiness guard used when attaching the
optional `serverIPAddress` / `connection` / `_resourceType` fields. -/
def optStr (o : Option String) : Option String :=
  match o with
  | some s => if s = "" then none else some s
  | none => none

/-- The request headers `_build_entry` selects:
`pending.get('request_headers_extra') or pending.get('request_headers', {})`. -/
def requestHeadersUsed (p : Pending) : Headers :=
  match p.requestHeadersExtra with
  | some l => if l.isEmpty then p.requestHeaders else l
  | none => p.requestHeaders

/-- The response headers `_build_entry` selects:
`pending.get('response_headers_extra') or pending.get('response_headers', {})`. -/
def responseHeadersUsed (p : Pending) : Headers :=
  match p.responseHeadersExtra with
  | some l => if l.isEmpty then p.responseHeaders.getD [] else l
  | none => p.responseHeaders.getD []

/-- `_build_entry`: build a HAR entry from accumulated pending data. -/
def buildEntry (p : Pending) : HarEntry :=
  let reqHdrs := requestHeadersUsed p
  let respHdrs := responseHeadersUsed p
  let protocol := normalizeHttpVersion (p.protocol.getD "")
  let harRequest := buildHarRequest p.url p reqHdrs protocol p.postData
  let harResponse := buildHarResponse p respHdrs protocol
  let responseTs := p.responseTimestamp.getD 0
  let finishedTs := p.finishedTimestamp.getD 0
  let receiveMs : Option ℚ :=
    if responseTs ≠ 0 ∧ finishedTs ≠ 0 ∧ finishedTs > responseTs then
      some ((finishedTs - responseTs) * 1000)
    else none
  let harTimings := buildHarTimings p.timing receiveMs
  let phases := [harTimings.blocked, harTimings.dns, harTimings.connect,
    harTimings.send, harTimings.wait, harTimings.receive]
  let totalTime := (phases.filter (fun v => 0 < v)).sum
  { startedDateTime := wallTimeToIso p.wallTime
    time := roundTo 2 totalTime
    request := harRequest
    response := harResponse
    timings := harTimings
    serverIPAddress := optStr p.remoteIp
    connection := optStr p.connectionId
    resourceType := optStr (some p.resourceType) }

end Pydoll

namespace Pydoll

/-! ## The recorder as an event-driven state machine -/

/-- The seven CDP network events the recorder subscribes to, carrying the
fields each handler reads.  `loadingFinished` also carries the result of
the asynchronous `Network.getResponseBody` fetch performed by
`_finalize_entry` (a failed fetch is `fetchedBody = ""`,
`fetchedBodyBase64 = false`). -/
inductive NetEvent where
  | requestWillBeSent (requestId url method : String) (headers : Headers)
      (postData : Option String) (wallTime timestamp : ℚ) (resourceType : String)
      (redirectResponse : Option CDPResponse)
  | requestWillBeSentExtraInfo (requestId : String) (headers : Headers)
  | responseReceived (requestId : String) (response : CDPResponse) (timestamp : ℚ)
  | responseReceivedExtraInfo (requestId : String) (headers : Headers)
      (statusCode : Option ℤ)
  | dataReceived (requestId : String) (encodedDataLength : ℤ)
  | loadingFinished (requestId : String) (timestamp : ℚ) (encodedDataLength : ℚ)
      (fetchedBody : String) (fetchedBodyBase64 : Bool)
  | loadingFailed (requestId : String) (errorText : String) (canceled : Bool)
deriving DecidableEq, Repr

/-- The `requestId` an event is keyed by. -/
def NetEvent.requestIdOf : NetEvent → String
  | .requestWillBeSent rid _ _ _ _ _ _ _ _ => rid
  | .requestWillBeSentExtraInfo rid _ => rid
  | .responseReceived rid _ _ => rid
  | .responseReceivedExtraInfo rid _ _ => rid
  | .dataReceived rid _ => rid
  | .loadingFinished rid _ _ _ _ => rid
  | .loadingFailed rid _ _ => rid

/-- Mutable state of a `HarRecorder`: the optional resource-type filter,
the `_pending` and `_data_received_sizes` dicts, the `_entries` list, and
a count of scheduled body-fetch tasks. -/
structure RecState where
  resourceTypes : Option (List String) := none
  pending : List (String × Pending) := []
  entries : List HarEntry := []
  sizes : List (String × ℤ) := []
  bodyFetchCount : ℕ := 0
deriving DecidableEq, Repr

/-- Fresh state of a recorder built with the given resource-type filter. -/
def initState (resourceTypes : Option (List String) := none) : RecState :=
  { resourceTypes := resourceTypes }

/-- The fresh pending dict created by `_on_request_will_be_sent`. -/
def mkPending (url method : String) (headers : Headers) (postData : Option String)
    (wallTime : ℚ) (resourceType : String) (timestamp : ℚ) : Pending :=
  { url := url, method := method, requestHeaders := headers, postData := postData,
    wallTime := wallTime, resourceType := resourceType, timestamp := timestamp }

/-- `_finalize_redirect_entry`: pop the pending entry, stamp it with the
redirect response's status/headers/… and emit it as a terminal entry. -/
def finalizeRedirectEntry (s : RecState) (requestId : String)
    (redirectResponse : CDPResponse) : RecState :=
  match alistLookup requestId s.pending with
  | none => s
  | some p =>
    let bb := (alistLookup requestId s.sizes).getD (-1)
    let p' := { p with
      bodyBytes := some bb
      status := some redirectResponse.status
      statusText := some redirectResponse.statusText
      responseHeaders := some (redirectResponse.headers.getD [])
      mimeType := some redirectResponse.mimeType
      protocol := some (redirectResponse.protocol.getD "")
      timing := redirectResponse.timing }
    { s with
      pending := alistErase requestId s.pending
      sizes := alistErase requestId s.sizes
      entries := s.entries ++ [buildEntry p'] }

/-- `_on_request_will_be_sent`. -/
def onRequestWillBeSent (s : RecState) (requestId url method : String)
    (headers : Headers) (postData : Option String) (wallTime timestamp : ℚ)
    (resourceType : String) (redirectResponse : Option CDPResponse) : RecState :=
  let filteredOut : Bool :=
    match s.resourceTypes with
    | some l => !l.isEmpty && !l.contains resourceType
    | none => false
  if filteredOut then s
  else
    let s1 :=
      match redirectResponse with
      | some r =>
        if (alistLookup requestId s.pending).isSome then
          finalizeRedirectEntry s requestId r
        else s
      | none => s
    let fresh := mkPending url method headers postData wallTime resourceType timestamp
    { s1 with pending := alistSet requestId fresh s1.pending }

/-- `_on_request_extra_info`. -/
def onRequestExtraInfo (s : RecState) (requestId : String) (headers : Headers) : RecState :=
  match alistLookup requestId s.pending with
  | none => s
  | some p =>
    if headers.isEmpty then s
    else
      let p' := { p with requestHeadersExtra := some headers }
      { s with pending := alistSet requestId p' s.pending }

/-- `str(response.get('connectionId', ''))`. -/
def connectionIdStr (o : Option ℤ) : String :=
  match o with
  | some n => toString n
  | none => ""

/-- `_on_response_received`. -/
def onResponseReceived (s : RecState) (requestId : String) (response : CDPResponse)
    (timestamp : ℚ) : RecState :=
  match alistLookup requestId s.pending with
  | none => s
  | some p =>
    let p' := { p with
      status := some response.status
      statusText := some response.statusText
      responseHeaders := some (response.headers.getD [])
      mimeType := some response.mimeType
      protocol := some (response.protocol.getD "")
      timing := response.timing
      remoteIp := some (response.remoteIPAddress.getD "")
      connectionId := some (connectionIdStr response.connectionId)
      encodedDataLength := some (response.encodedDataLength.getD 0)
      responseTimestamp := some timestamp }
    { s with pending := alistSet requestId p' s.pending }

/-- `_on_response_extra_info`. -/
def onResponseExtraInfo (s : RecState) (requestId : String) (headers : Headers)
    (statusCode : Option ℤ) : RecState :=
  match alistLookup requestId s.pending with
  | none => s
  | some p =>
    let p1 := if headers.isEmpty then p else { p with responseHeadersExtra := some headers }
    let p2 :=
      match statusCode with
      | some c => { p1 with extraStatusCode := some c }
      | none => p1
    { s with pending := alistSet requestId p2 s.pending }

/-- `_on_data_received`: accumulate chunk byte counts in `_data_received_sizes`. -/
def onDataReceived (s : RecState) (requestId : String) (chunkSize : ℤ) : RecState :=
  { s with sizes :=
      alistSet requestId ((alistLookup requestId s.sizes).getD 0 + chunkSize) s.sizes }

/-- `_on_loading_finished` together with the `_finalize_entry` task it
schedules: record transfer size / finish timestamp / accumulated body
bytes, pop the pending entry, attach the fetched body and emit the entry. -/
def onLoadingFinished (s : RecState) (requestId : String) (timestamp : ℚ)
    (encodedDataLength : ℚ) (fetchedBody : String) (fetchedBodyBase64 : Bool) : RecState :=
  match alistLookup requestId s.pending with
  | none => s
  | some p =>
    let p' := { p with
      transferSize := some encodedDataLength
      finishedTimestamp := some timestamp
      bodyBytes := some ((alistLookup requestId s.sizes).getD (-1))
      responseBody := some fetchedBody
      responseBodyBase64 := some fetchedBodyBase64 }
    { s with
      pending := alistErase requestId s.pending
      sizes := alistErase requestId s.sizes
      entries := s.entries ++ [buildEntry p']
      bodyFetchCount := s.bodyFetchCount + 1 }

/-- `_on_loading_failed`: pop the pending entry, default its status to 0
and its status text to the error text, and emit it immediately. -/
def onLoadingFailed (s : RecState) (requestId errText : String) (canceled : Bool) : RecState :=
  match alistLookup requestId s.pending with
  | none => s
  | some p =>
    let p' := { p with
      status := some (p.status.getD 0)
      statusText := some (p.statusText.getD errText)
      errorText := some errText
      canceled := some canceled }
    { s with
      pending := alistErase requestId s.pending
      sizes := alistErase requestId s.sizes
      entries := s.entries ++ [buildEntry p'] }

/-- Dispatch one CDP event to its handler. -/
def step (s : RecState) : NetEvent → RecState
  | .requestWillBeSent rid url method headers postData wallTime ts rtype redirect =>
    onRequestWillBeSent s rid url method headers postData wallTime ts rtype redirect
  | .requestWillBeSentExtraInfo rid headers => onRequestExtraInfo s rid headers
  | .responseReceived rid resp ts => onResponseReceived s rid resp ts
  | .responseReceivedExtraInfo rid headers statusCode =>
    onResponseExtraInfo s rid headers statusCode
  | .dataReceived rid chunk => onDataReceived s rid chunk
  | .loadingFinished rid ts edl body b64 => onLoadingFinished s rid ts edl body b64
  | .loadingFailed rid err canceled => onLoadingFailed s rid err canceled

/-- Process a list of events in arrival order. -/
def run (s : RecState) (es : List NetEvent) : RecState :=
  es.foldl step s

/-- The setdefault pair of `_flush_pending`. -/
def flushDefaults (p : Pending) : Pending :=
  { p with
    status := some (p.status.getD 0)
    statusText := some (p.statusText.getD "(pending)") }

/-- `_flush_pending` as called from `stop()`: every still-pending request
is emitted as a terminal entry (with the `(pending)` defaults) and the
pending table is emptied. -/
def flushPendingFn (s : RecState) : RecState :=
  { s with
    pending := []
    entries := s.entries ++ s.pending.map (fun kp => buildEntry (flushDefaults kp.2)) }

/-! ## `HarCapture` export surface -/

/-- One step of Python's stable `sorted(..., key=startedDateTime)`:
insert after every element whose key is `≤` the new element's key. -/
def insertEntry (e : HarEntry) : List HarEntry → List HarEntry
  | [] => [e]
  | f :: rest =>
    if f.startedDateTime ≤ e.startedDateTime then f :: insertEntry e rest
    else e :: f :: rest

/-- `sorted(entries, key=lambda e: e['startedDateTime'])` — a stable sort
by `startedDateTime`, modelled as left-to-right insertion. -/
def sortEntries (l : List HarEntry) : List HarEntry :=
  l.foldl (fun acc e => insertEntry e acc) []

/-- `HarCapture.entries`: a sorted copy of the recorder's entries. -/
def captureEntries (s : RecState) : List HarEntry :=
  sortEntries s.entries

/-- The `log` object built by `HarCapture.to_dict`. -/
structure HarLog where
  version : String
  creatorName : String
  creatorVersion : String
  entries : List HarEntry
deriving DecidableEq, Repr

/-- `HarCapture.to_dict` (the `pages` list is always empty and omitted;
the pydoll version string is a parameter). -/
def captureToDict (s : RecState) (pydollVersion : String) : HarLog :=
  { version := "1.2"
    creatorName := "pydoll"
    creatorVersion := pydollVersion
    entries := sortEntries s.entries }

end Pydoll

namespace Pydoll

/-! ## Cross-context command routing (`find_elements_mixin.py`) -/

/-- A CDP connection handler, abstracted to its identity. -/
structure ConnectionHandler where
  id : ℕ
deriving DecidableEq, Repr

/-- Modelled from the spec: `IFrameContext` (its module
`pydoll.interactions.iframe` is not part of the sources), §3:
`{frame_id, session_handler (owning connection/router), session_id,
document_object_id (optional), execution_context_id (optional)}` —
"commands targeting this context must be sent via session_handler with
this session_id". -/
structure IFrameContext where
  frameId : String
  sessionHandler : ConnectionHandler
  sessionId : Option String
  documentObjectId : Option String := none
  executionContextId : Option ℤ := none
deriving DecidableEq, Repr

/-- The routing-relevant attributes of an element / frame / shadow-root
context: an inherited `_iframe_context`, the `_routing_session_handler` /
`_routing_session_id` fields set when the entity itself is an iframe
boundary, and the default owning `_connection_handler`. -/
structure FindContext where
  connectionHandler : ConnectionHandler
  iframeContext : Option IFrameContext := none
  routingSessionHandler : Option ConnectionHandler := none
  routingSessionId : Option String := none
deriving DecidableEq, Repr

/-- `_resolve_routing`: resolve the (handler, sessionId) pair for the
current context — inherited `IFrameContext` first, then the context's own
routing fields, then the default connection. -/
def resolveRouting (c : FindContext) : ConnectionHandler × Option String :=
  match c.iframeContext with
  | some ic => (ic.sessionHandler, ic.sessionId)
  | none =>
    match c.routingSessionHandler with
    | some h => (h, c.routingSessionId)
    | none => (c.connectionHandler, none)

/-- An outgoing CDP command: only the `sessionId` stamp matters here, the
method/params payload is opaque. -/
structure CDPCommand where
  payload : String
  sessionId : Option String := none
deriving DecidableEq, Repr

/-- `_execute_command`: resolve routing fresh, stamp the command with the
session id when it is truthy (non-`None`, non-empty), and hand the
stamped command to the resolved handler (modelled as returning the
(handler, sent command) pair). -/
def executeCommand (c : FindContext) (cmd : CDPCommand) : ConnectionHandler × CDPCommand :=
  let (handler, sessionId) := resolveRouting c
  let cmd' :=
    match sessionId with
    | some sid => if sid = "" then cmd else { cmd with sessionId := some sid }
    | none => cmd
  (handler, cmd')

/-! ## The iframe-crossing selector walk -/

/-- Modelled from the spec: the selector strategies of `pydoll.constants.By`
(not part of the sources). -/
inductive By where
  | cssSelector
  | xpath
  | idSelector
  | classNameSelector
  | nameSelector
  | tagNameSelector
deriving DecidableEq, Repr

/-- A DOM element as the walk observes it: whether it is an iframe
boundary, the search context its content provides, and an identity. -/
structure DomElement where
  isIframe : Bool
  contentCtx : ℕ
  objectId : ℕ
deriving DecidableEq, Repr

/-- Search contexts are abstract handles; the DOM is supplied as two
oracles, `findE` (first match of `_find_element`, `raise_exc=False`) and
`findAllE` (all matches of `_find_elements`, `raise_exc=False`). -/
abbrev FindOracle := ℕ → By → String → Option DomElement

abbrev FindAllOracle := ℕ → By → String → List DomElement

/-- Result of a walk attempt, mirroring the Python return value
`None | WebElement | list[WebElement]`. -/
inductive WalkResult where
  | notFound
  | one (e : DomElement)
  | many (l : List DomElement)
deriving DecidableEq, Repr

/-- `_attempt_find_across_iframes`: walk the segments left to right; each
non-final segment must resolve to a single iframe element (else the whole
attempt returns `None`), the final segment performs the single/all search;
an empty segment list falls through to `return None`. -/
def attemptFindAcrossIframes (findE : FindOracle) (findAllE : FindAllOracle)
    (ctx : ℕ) (findAll : Bool) : List (By × String) → WalkResult
  | [] => .notFound
  | [(b, sel)] =>
    if findAll then .many (findAllE ctx b sel)
    else
      match findE ctx b sel with
      | some e => .one e
      | none => .notFound
  | (b, sel) :: seg :: rest =>
    match findE ctx b sel with
    | some e =>
      if e.isIframe then attemptFindAcrossIframes findE findAllE e.contentCtx findAll (seg :: rest)
      else .notFound
    | none => .notFound

/-- The failure kinds of `_find_across_iframes`. -/
inductive FindFailure where
  | elementNotFound
  | waitElementTimeout
deriving DecidableEq, Repr

/-- `_find_across_iframes` in its `timeout=0` single-attempt branch: a
non-`None`, non-empty attempt result is returned; otherwise the call
raises `ElementNotFound` when `raise_exc` is set and returns `[]` /
`None` when it is not.  (The `timeout > 0` retry loop repeats the same
attempt every 0.5 s and is temporal, so it is not modelled.) -/
def findAcrossIframes (findE : FindOracle) (findAllE : FindAllOracle) (ctx : ℕ)
    (segments : List (By × String)) (findAll raiseExc : Bool) :
    Except FindFailure WalkResult :=
  let r := attemptFindAcrossIframes findE findAllE ctx findAll segments
  if r ≠ .notFound ∧ r ≠ .many [] then .ok r
  else if raiseExc then .error .elementNotFound
  else .ok (if findAll then .many [] else .notFound)

/-- The claim's description of the non-final walk: follow each segment
through an iframe boundary, failing when a segment has no match or the
match is not an iframe; returns the context the final segment searches. -/
def walkIframeContexts (findE : FindOracle) (ctx : ℕ) : List (By × String) → Option ℕ
  | [] => some ctx
  | (b, sel) :: rest =>
    match findE ctx b sel with
    | some e => if e.isIframe then walkIframeContexts findE e.contentCtx rest else none
    | none => none

/-- The final-segment search, as requested by `find_all`. -/
def finalSegmentSearch (findE : FindOracle) (findAllE : FindAllOracle) (ctx : ℕ)
    (b : By) (sel : String) (findAll : Bool) : WalkResult :=
  if findAll then .many (findAllE ctx b sel)
  else
    match findE ctx b sel with
    | some e => .one e
    | none => .notFound

end Pydoll

namespace Pydoll

/-! ## Association-list lemmas -/

/-- All bindings of key `k` in a dict. -/
def filterKey {α : Type} (k : String) (l : List (String × α)) : List (String × α) :=
  l.filter (fun p => p.1 == k)

/-- Keys of a Python dict are unique. -/
def keysNodup {α : Type} (l : List (String × α)) : Prop :=
  (l.map Prod.fst).Nodup

lemma alistLookup_set_self {α : Type} (k : String) (v : α) (l : List (String × α)) :
    alistLookup k (alistSet k v l) = some v := by
  induction l with
  | nil => simp [alistSet, alistLookup]
  | cons p rest ih =>
    by_cases h : p.1 = k
    · simp [alistSet, alistLookup, h]
    · simpa [alistSet, alistLookup, h] using ih

lemma alistLookup_set_ne {α : Type} (k k' : String) (v : α) (l : List (String × α))
    (h : k' ≠ k) : alistLookup k' (alistSet k v l) = alistLookup k' l := by
  induction l with
  | nil => simp [alistSet, alistLookup, Ne.symm h]
  | cons p rest ih =>
    obtain ⟨a, b⟩ := p
    by_cases hp : a = k
    · subst hp
      simp [alistSet, alistLookup, Ne.symm h]
    · by_cases hp2 : a = k'
      · simp [alistSet, alistLookup, hp, hp2, h, Ne.symm h]
      · simpa [alistSet, alistLookup, hp, hp2, h, Ne.symm h] using ih

lemma alistLookup_erase_ne {α : Type} (k k' : String) (l : List (String × α))
    (h : k' ≠ k) : alistLookup k' (alistErase k l) = alistLookup k' l := by
  induction l with
  | nil => simp [alistErase, alistLookup]
  | cons p rest ih =>
    obtain ⟨a, b⟩ := p
    by_cases hp : a = k
    · subst hp
      simp [alistErase, alistLookup, List.eraseP_cons, Ne.symm h]
    · by_cases hp2 : a = k'
      · simp [alistErase, alistLookup, List.eraseP_cons, hp, hp2, h, Ne.symm h]
      · simpa [alistErase, alistLookup, List.eraseP_cons, hp, hp2, h, Ne.symm h] using ih

lemma filterKey_set_ne {α : Type} (k k' : String) (v : α) (l : List (String × α))
    (h : k' ≠ k) : filterKey k' (alistSet k v l) = filterKey k' l := by
  induction l with
  | nil => simp [alistSet, filterKey, Ne.symm h]
  | cons p rest ih =>
    obtain ⟨a, b⟩ := p
    by_cases hp : a = k
    · subst hp
      simp [alistSet, filterKey, Ne.symm h]
    · by_cases hp2 : a = k'
      · simpa [alistSet, filterKey, hp, hp2, h, Ne.symm h] using ih
      · simpa [alistSet, filterKey, hp, hp2, h, Ne.symm h] using ih

lemma filterKey_erase_ne {α : Type} (k k' : String) (l : List (String × α))
    (h : k' ≠ k) : filterKey k' (alistErase k l) = filterKey k' l := by
  induction l with
  | nil => simp [alistErase, filterKey]
  | cons p rest ih =>
    obtain ⟨a, b⟩ := p
    by_cases hp : a = k
    · subst hp
      simp [alistErase, filterKey, List.eraseP_cons, Ne.symm h]
    · by_cases hp2 : a = k'
      · simpa [alistErase, filterKey, List.eraseP_cons, hp, hp2, h, Ne.symm h] using ih
      · simpa [alistErase, filterKey, List.eraseP_cons, hp, hp2, h, Ne.symm h] using ih

lemma filterKey_eq_nil_of_not_mem {α : Type} (k : String) (l : List (String × α))
    (h : k ∉ l.map Prod.fst) : filterKey k l = [] := by
  induction l with
  | nil => rfl
  | cons p rest ih =>
    have h1 : ¬ p.1 = k := fun e => h (by simp [e])
    have h2 : k ∉ rest.map Prod.fst := fun m => h (by simp [m])
    simpa [filterKey, List.filter_cons, h1] using ih h2

lemma filterKey_set_self {α : Type} (k : String) (v : α) (l : List (String × α))
    (h : keysNodup l) : filterKey k (alistSet k v l) = [(k, v)] := by
  induction l with
  | nil => simp [alistSet, filterKey]
  | cons p rest ih =>
    obtain ⟨a, b⟩ := p
    rw [keysNodup, List.map_cons, List.nodup_cons] at h
    by_cases hp : a = k
    · subst hp
      have hnil := filterKey_eq_nil_of_not_mem a rest h.1
      simp [filterKey] at hnil
      simp [alistSet, filterKey]
      exact hnil
    · simpa [alistSet, filterKey, hp] using ih h.2

lemma filterKey_length_le_one {α : Type} (k : String) (l : List (String × α))
    (h : keysNodup l) : (filterKey k l).length ≤ 1 := by
  induction l with
  | nil => simp [filterKey]
  | cons p rest ih =>
    obtain ⟨a, b⟩ := p
    rw [keysNodup, List.map_cons, List.nodup_cons] at h
    by_cases hp : a = k
    · subst hp
      have hnil := filterKey_eq_nil_of_not_mem a rest h.1
      simp [filterKey] at hnil
      simp [filterKey]
      exact hnil
    · simpa [filterKey, hp] using ih h.2

lemma keys_alistSet {α : Type} (k : String) (v : α) (l : List (String × α)) :
    (alistSet k v l).map Prod.fst =
      if k ∈ l.map Prod.fst then l.map Prod.fst else l.map Prod.fst ++ [k] := by
  induction l with
  | nil => simp [alistSet]
  | cons p rest ih =>
    obtain ⟨a, b⟩ := p
    by_cases hp : a = k
    · subst hp
      simp [alistSet]
    · by_cases hk : k ∈ rest.map Prod.fst <;>
        simp [alistSet, hp, Ne.symm hp, ih, hk]

lemma keysNodup_set {α : Type} (k : String) (v : α) (l : List (String × α))
    (h : keysNodup l) : keysNodup (alistSet k v l) := by
  rw [keysNodup, keys_alistSet]
  by_cases hk : k ∈ l.map Prod.fst
  · simpa [hk] using h
  · simp [hk, List.nodup_append]
    exact h

lemma keysNodup_erase {α : Type} (k : String) (l : List (String × α))
    (h : keysNodup l) : keysNodup (alistErase k l) := by
  have hsub : List.Sublist (alistErase k l) l := List.eraseP_sublist l
  exact List.Nodup.sublist (List.Sublist.map Prod.fst hsub) h

lemma alistLookup_eq_head_filterKey {α : Type} (k : String) (l : List (String × α)) :
    alistLookup k l = (filterKey k l).head?.map (·.2) := by
  induction l with
  | nil => simp [alistLookup, filterKey]
  | cons p rest ih =>
    by_cases hp : p.1 = k
    · simp [alistLookup, filterKey, hp]
    · simp [alistLookup, filterKey, hp]

/-! ## Rounding and filtered-sum lemmas -/

lemma roundTo_nonneg {n : ℕ} {q : ℚ} (h : 0 ≤ q) : 0 ≤ roundTo n q := by
  rw [roundTo]
  apply div_nonneg _ (by positivity)
  have : (0 : ℤ) ≤ round (q * 10 ^ n) := by
    rw [round_eq]
    exact Int.floor_nonneg.mpr (by positivity)
  exact_mod_cast this

lemma sum_filter_pos_eq_sum_filter_nonneg (l : List ℚ) :
    (l.filter (fun v => 0 < v)).sum = (l.filter (fun v => 0 ≤ v)).sum := by
  induction l with
  | nil => rfl
  | cons a l ih =>
    rcases lt_trichotomy 0 a with h | h | h
    · simp [List.filter_cons, h, le_of_lt h, ih]
    · simp [List.filter_cons, ← h, ih]
    · simp [List.filter_cons, not_lt.mpr (le_of_lt h), not_le.mpr h, ih]

end Pydoll

namespace Pydoll

/-! ## Recorder state-machine lemmas -/

lemma finalizeRedirect_resourceTypes (s : RecState) (rid : String) (r : CDPResponse) :
    (finalizeRedirectEntry s rid r).resourceTypes = s.resourceTypes := by
  unfold finalizeRedirectEntry
  split <;> rfl

lemma step_resourceTypes (s : RecState) (e : NetEvent) :
    (step s e).resourceTypes = s.resourceTypes := by
  cases e <;>
    simp only [step, onRequestWillBeSent, onRequestExtraInfo, onResponseReceived,
      onResponseExtraInfo, onDataReceived, onLoadingFinished, onLoadingFailed] <;>
    (repeat' split) <;>
    simp [finalizeRedirect_resourceTypes]

lemma run_resourceTypes : ∀ (es : List NetEvent) (s : RecState),
    (run s es).resourceTypes = s.resourceTypes := by
  intro es
  induction es with
  | nil => intro s; rfl
  | cons e es ih =>
    intro s
    rw [run, List.foldl_cons, ← run]
    rw [ih, step_resourceTypes]

lemma keysNodup_pending_step (s : RecState) (e : NetEvent) (h : keysNodup s.pending) :
    keysNodup (step s e).pending := by
  cases e <;>
    simp only [step, onRequestWillBeSent, onRequestExtraInfo, onResponseReceived,
      onResponseExtraInfo, onDataReceived, onLoadingFinished, onLoadingFailed,
      finalizeRedirectEntry] <;>
    (repeat' split) <;>
    simp [keysNodup_set, keysNodup_erase, h]

lemma keysNodup_pending_run : ∀ (es : List NetEvent) (s : RecState),
    keysNodup s.pending → keysNodup (run s es).pending := by
  intro es
  induction es with
  | nil => intro s h; exact h
  | cons e es ih =>
    intro s h
    rw [run, List.foldl_cons, ← run]
    exact ih _ (keysNodup_pending_step s e h)

lemma filterKey_pending_step_ne (s : RecState) (e : NetEvent) (R : String)
    (h : e.requestIdOf ≠ R) :
    filterKey R (step s e).pending = filterKey R s.pending := by
  have hR : R ≠ e.requestIdOf := Ne.symm h
  cases e <;>
    simp only [NetEvent.requestIdOf] at hR <;>
    simp only [step, onRequestWillBeSent, onRequestExtraInfo, onResponseReceived,
      onResponseExtraInfo, onDataReceived, onLoadingFinished, onLoadingFailed,
      finalizeRedirectEntry] <;>
    (repeat' split) <;>
    simp [filterKey_set_ne, filterKey_erase_ne, hR]

lemma filterKey_pending_run_ne (R : String) : ∀ (es : List NetEvent) (s : RecState),
    (∀ e ∈ es, e.requestIdOf ≠ R) →
    filterKey R (run s es).pending = filterKey R s.pending := by
  intro es
  induction es with
  | nil => intro s _; rfl
  | cons e es ih =>
    intro s h
    rw [run, List.foldl_cons, ← run]
    rw [ih _ (fun e' he' => h e' (List.mem_cons_of_mem _ he')),
      filterKey_pending_step_ne s e R (h e (List.mem_cons_self _ _))]

lemma filterKey_pending_requestWillBeSent (s : RecState) (R url method : String)
    (headers : Headers) (postData : Option String) (wallTime ts : ℚ) (rtype : String)
    (hrt : s.resourceTypes = none) (h : keysNodup s.pending) :
    filterKey R
      (step s (.requestWillBeSent R url method headers postData wallTime ts rtype none)).pending
      = [(R, mkPending url method headers postData wallTime rtype ts)] := by
  simp only [step, onRequestWillBeSent, hrt]
  exact filterKey_set_self R _ s.pending h

lemma dataRun_pending (R : String) : ∀ (cs : List ℤ) (s : RecState),
    (run s (cs.map (fun c => NetEvent.dataReceived R c))).pending = s.pending := by
  intro cs
  induction cs with
  | nil => intro s; rfl
  | cons c cs ih =>
    intro s
    simpa [run, step, onDataReceived] using ih _

lemma dataRun_entries (R : String) : ∀ (cs : List ℤ) (s : RecState),
    (run s (cs.map (fun c => NetEvent.dataReceived R c))).entries = s.entries := by
  intro cs
  induction cs with
  | nil => intro s; rfl
  | cons c cs ih =>
    intro s
    simpa [run, step, onDataReceived] using ih _

lemma dataRun_sizes_some (R : String) : ∀ (cs : List ℤ) (s : RecState) (v : ℤ),
    alistLookup R s.sizes = some v →
    alistLookup R (run s (cs.map (fun c => NetEvent.dataReceived R c))).sizes
      = some (v + cs.sum) := by
  intro cs
  induction cs with
  | nil => intro s v h; simpa using h
  | cons c cs ih =>
    intro s v h
    have hstep : alistLookup R (step s (NetEvent.dataReceived R c)).sizes = some (v + c) := by
      simp [step, onDataReceived, h, alistLookup_set_self]
    have := ih _ _ hstep
    rw [List.map_cons, run, List.foldl_cons, ← run, this]
    congr 1
    rw [List.sum_cons]
    ring

lemma dataRun_sizes_none (R : String) (cs : List ℤ) (s : RecState)
    (h : alistLookup R s.sizes = none) :
    alistLookup R (run s (cs.map (fun c => NetEvent.dataReceived R c))).sizes
      = (match cs with
         | [] => none
         | c :: cs' => some (c + cs'.sum)) := by
  cases cs with
  | nil => simpa using h
  | cons c cs' =>
    have hstep : alistLookup R (step s (NetEvent.dataReceived R c)).sizes = some (0 + c) := by
      simp [step, onDataReceived, h, alistLookup_set_self]
    have := dataRun_sizes_some R cs' _ _ hstep
    rw [List.map_cons, run, List.foldl_cons, ← run, this]
    congr 1
    ring

/-! ## Projection lemmas for `buildEntry` -/

lemma buildHarRequest_url (url : String) (p : Pending) (headers : Headers)
    (protocol : String) (pd : Option String) :
    (buildHarRequest url p headers protocol pd).url = url := by
  unfold buildHarRequest
  cases pd with
  | none => rfl
  | some t => by_cases ht : t = "" <;> simp [ht]

lemma buildEntry_request (p : Pending) :
    (buildEntry p).request = buildHarRequest p.url p (requestHeadersUsed p)
      (normalizeHttpVersion (p.protocol.getD "")) p.postData := rfl

lemma buildEntry_request_url (p : Pending) : (buildEntry p).request.url = p.url := by
  rw [buildEntry_request, buildHarRequest_url]

lemma buildEntry_response_status (p : Pending) :
    (buildEntry p).response.status = p.extraStatusCode.getD (p.status.getD 0) := rfl

lemma buildEntry_response_statusText (p : Pending) :
    (buildEntry p).response.statusText = p.statusText.getD "" := rfl

lemma buildEntry_response_headers (p : Pending) :
    (buildEntry p).response.headers = headersDictToList (responseHeadersUsed p) := rfl

lemma buildEntry_response_bodySize (p : Pending) :
    (buildEntry p).response.bodySize =
      (if (buildEntry p).response.status = 304 then 0
       else if p.bodyBytes.getD (-1) > 0 then p.bodyBytes.getD (-1)
       else if (buildEntry p).response.content.size > 0 then (buildEntry p).response.content.size
       else -1) := rfl

end Pydoll

namespace Pydoll

/-- C3: for every finalized HAR entry, `entry.time` equals the sum of the
blocked, dns, connect, send, wait and receive phases that are ≥ 0, rounded
to 2 decimals, with the `ssl` phase excluded; holding the other inputs
fixed, changing the ssl markers alone never changes `entry.time`. -/
theorem claimC3 :
    (∀ p : Pending,
      (buildEntry p).time = roundTo 2
        (([(buildEntry p).timings.blocked, (buildEntry p).timings.dns,
           (buildEntry p).timings.connect, (buildEntry p).timings.send,
           (buildEntry p).timings.wait, (buildEntry p).timings.receive].filter
             (fun v => 0 ≤ v)).sum)) ∧
    (∀ (p : Pending) (t : ResourceTiming) (x y : Option ℚ),
      (buildEntry { p with timing := some { t with sslStart := x, sslEnd := y } }).time =
        (buildEntry { p with timing := some t }).time) := by
  constructor
  · intro p
    rw [← sum_filter_pos_eq_sum_filter_nonneg]
    rfl
  · intro p t x y
    rfl

/-- C10: for every finalized HAR entry, `request.bodySize` is the UTF-8
byte length of the post data text when that text is non-empty and 0
otherwise, and `request.postData` is present exactly when the text is
non-empty, carrying the text and the Content-Type (or content-type)
header value as mimeType. -/
theorem claimC10 :
    (∀ (p : Pending) (t : String), p.postData = some t → t ≠ "" →
      (buildEntry p).request.bodySize = (t.utf8ByteSize : ℤ) ∧
      (buildEntry p).request.postData = some {
        mimeType := getHeaderD (requestHeadersUsed p) "Content-Type"
          (getHeaderD (requestHeadersUsed p) "content-type" "")
        text := t }) ∧
    (∀ p : Pending, (p.postData = none ∨ p.postData = some "") →
      (buildEntry p).request.bodySize = 0 ∧ (buildEntry p).request.postData = none) := by
  constructor
  · intro p t hpd ht
    rw [buildEntry_request]
    unfold buildHarRequest
    rw [hpd]
    simp [ht]
  · intro p hpd
    rw [buildEntry_request]
    unfold buildHarRequest
    rcases hpd with h | h <;> rw [h] <;> simp

/-- Witness for C10 at a concrete POST request. -/
theorem claimC10_witness :
    (mkPending "u" "POST" [("Content-Type", "text/plain")] (some "abc") 1 "" 1).postData
        = some "abc" ∧
    "abc" ≠ "" ∧
    (buildEntry (mkPending "u" "POST" [("Content-Type", "text/plain")]
        (some "abc") 1 "" 1)).request.bodySize = ("abc".utf8ByteSize : ℤ) ∧
    (buildEntry (mkPending "u" "POST" [("Content-Type", "text/plain")]
        (some "abc") 1 "" 1)).request.postData = some { mimeType := "text/plain", text := "abc" } := by
  refine ⟨rfl, by decide, ?_, ?_⟩
  · exact (claimC10.1 _ "abc" rfl (by decide)).1
  · have h := (claimC10.1 (mkPending "u" "POST" [("Content-Type", "text/plain")]
      (some "abc") 1 "" 1) "abc" rfl (by decide)).2
    rw [h]
    rfl

end Pydoll

namespace Pydoll

/-- C5: command routing resolves fresh in priority order — the inherited
IFrameContext pair first, else the context's own iframe-boundary routing
fields, else the default owning connection with no session id — and a
resolved non-empty session id is stamped onto the outgoing command. -/
theorem claimC5 :
    (∀ (c : FindContext) (ic : IFrameContext), c.iframeContext = some ic →
      resolveRouting c = (ic.sessionHandler, ic.sessionId)) ∧
    (∀ (c : FindContext) (h : ConnectionHandler), c.iframeContext = none →
      c.routingSessionHandler = some h →
      resolveRouting c = (h, c.routingSessionId)) ∧
    (∀ c : FindContext, c.iframeContext = none → c.routingSessionHandler = none →
      resolveRouting c = (c.connectionHandler, none)) ∧
    (∀ (c : FindContext) (cmd : CDPCommand),
      (executeCommand c cmd).1 = (resolveRouting c).1) ∧
    (∀ (c : FindContext) (cmd : CDPCommand) (sid : String),
      (resolveRouting c).2 = some sid → sid ≠ "" →
      (executeCommand c cmd).2 = { cmd with sessionId := some sid }) ∧
    (∀ (c : FindContext) (cmd : CDPCommand),
      ((resolveRouting c).2 = none ∨ (resolveRouting c).2 = some "") →
      (executeCommand c cmd).2 = cmd) := by
  refine ⟨?_, ?_, ?_, ?_, ?_, ?_⟩
  · intro c ic hic
    simp [resolveRouting, hic]
  · intro c h hic hr
    simp [resolveRouting, hic, hr]
  · intro c hic hr
    simp [resolveRouting, hic, hr]
  · intro c cmd
    unfold executeCommand
    rcases hc : resolveRouting c with ⟨h0, s0⟩
    simp [hc]
  · intro c cmd sid hr hne
    unfold executeCommand
    rcases hc : resolveRouting c with ⟨h0, s0⟩
    rw [hc] at hr
    simp only [] at hr
    rw [show s0 = (h0, s0).2 from rfl, hr] at hc ⊢
    simp [hc, hne]
  · intro c cmd hr
    unfold executeCommand
    rcases hc : resolveRouting c with ⟨h0, s0⟩
    rw [hc] at hr
    rcases hr with hr | hr <;> simp only [] at hr <;> simp [hc, hr]

/-- A concrete routed context: an element inside an OOPIF whose
IFrameContext routes through handler 7 with session "S7". -/
def sampleRoutedContext : FindContext :=
  { connectionHandler := { id := 1 }
    iframeContext := some
      { frameId := "f1", sessionHandler := { id := 7 }, sessionId := some "S7" } }

/-- A concrete top-level context with no routing attached. -/
def sampleDefaultContext : FindContext :=
  { connectionHandler := { id := 1 } }

/-- Witness for C5 at concrete contexts and a concrete command. -/
theorem claimC5_witness :
    sampleRoutedContext.iframeContext = some
      { frameId := "f1", sessionHandler := { id := 7 }, sessionId := some "S7" } ∧
    resolveRouting sampleRoutedContext = (({ id := 7 } : ConnectionHandler), some "S7") ∧
    "S7" ≠ "" ∧
    (executeCommand sampleRoutedContext { payload := "DOM.querySelector" }).2 =
      { payload := "DOM.querySelector", sessionId := some "S7" } ∧
    sampleDefaultContext.iframeContext = none ∧
    sampleDefaultContext.routingSessionHandler = none ∧
    resolveRouting sampleDefaultContext = (({ id := 1 } : ConnectionHandler), none) := by
  refine ⟨rfl, ?_, by decide, ?_, rfl, rfl, ?_⟩
  · exact claimC5.1 sampleRoutedContext
      { frameId := "f1", sessionHandler := { id := 7 }, sessionId := some "S7" } rfl
  · exact claimC5.2.2.2.2.1 sampleRoutedContext { payload := "DOM.querySelector" } "S7"
      rfl (by decide)
  · exact claimC5.2.2.1 sampleDefaultContext rfl rfl

/-- C7: an extra-info, responseReceived, loadingFinished or loadingFailed
event for a request id with no live pending entry is dropped: the handler
leaves the whole recorder state unchanged (no entry appended, no
body-fetch task scheduled, pending table untouched). -/
theorem claimC7 : ∀ (s : RecState) (R : String), alistLookup R s.pending = none →
    (∀ headers, step s (.requestWillBeSentExtraInfo R headers) = s) ∧
    (∀ headers sc, step s (.responseReceivedExtraInfo R headers sc) = s) ∧
    (∀ resp ts, step s (.responseReceived R resp ts) = s) ∧
    (∀ ts edl body b64, step s (.loadingFinished R ts edl body b64) = s) ∧
    (∀ err c, step s (.loadingFailed R err c) = s) := by
  intro s R h
  refine ⟨?_, ?_, ?_, ?_, ?_⟩ <;> intros <;>
    simp [step, onRequestExtraInfo, onResponseExtraInfo, onResponseReceived,
      onLoadingFinished, onLoadingFailed, h]

/-- Witness for C7: all five handlers drop events for an unseen id. -/
theorem claimC7_witness :
    step (initState none) (.requestWillBeSentExtraInfo "1" [("a", "b")]) = initState none ∧
    step (initState none) (.responseReceivedExtraInfo "1" [("a", "b")] (some 200))
      = initState none ∧
    step (initState none)
      (.responseReceived "1" { status := 200, statusText := "OK", mimeType := "text/html" } 1)
      = initState none ∧
    step (initState none) (.loadingFinished "1" 1 10 "" false) = initState none ∧
    step (initState none) (.loadingFailed "1" "net::ERR" false) = initState none := by
  have h := claimC7 (initState none) "1" rfl
  exact ⟨h.1 _, h.2.1 _ _, h.2.2.1 _ _, h.2.2.2.1 _ _ _ _, h.2.2.2.2 _ _⟩

end Pydoll

namespace Pydoll

lemma timingPhase_eq_neg_one_iff (s e : ℚ) :
    timingPhase s e = -1 ↔ ¬(0 ≤ s ∧ 0 ≤ e) := by
  unfold timingPhase
  split
  case isTrue h =>
    constructor
    · intro heq
      have hge : (0 : ℚ) ≤ roundTo 3 (max (e - s) 0) := roundTo_nonneg (le_max_right _ _)
      rw [heq] at hge
      norm_num at hge
    · intro hn
      exact absurd ⟨h.1, h.2⟩ hn
  case isFalse h =>
    constructor
    · intro _
      exact fun hc => h ⟨hc.1, hc.2⟩
    · intro _
      rfl

/-- C9 (amended): in every built `HarTimings`, `dns`, `connect` and `ssl`
are -1 exactly when their start/end pair is unavailable; when the whole
CDP timing object is absent, `blocked` is also -1; but when a timing
object is present `blocked` is clamped to ≥ 0 (never -1), like `send` and
`wait` which default to 0; `receive` equals the rounded wall-clock gap
between `responseReceived` and `loadingFinished` whenever both timestamps
are nonzero and the finish timestamp is strictly later. -/
theorem claimC9 :
    (∀ rm : Option ℚ,
      (buildHarTimings none rm).blocked = -1 ∧ (buildHarTimings none rm).dns = -1 ∧
      (buildHarTimings none rm).connect = -1 ∧ (buildHarTimings none rm).ssl = -1 ∧
      (buildHarTimings none rm).send = 0 ∧ (buildHarTimings none rm).wait = 0) ∧
    (∀ (t : ResourceTiming) (rm : Option ℚ),
      ((buildHarTimings (some t) rm).dns = -1 ↔
        ¬(0 ≤ t.dnsStart.getD (-1) ∧ 0 ≤ t.dnsEnd.getD (-1))) ∧
      ((buildHarTimings (some t) rm).connect = -1 ↔
        ¬(0 ≤ t.connectStart.getD (-1) ∧ 0 ≤ t.connectEnd.getD (-1))) ∧
      ((buildHarTimings (some t) rm).ssl = -1 ↔
        ¬(0 ≤ t.sslStart.getD (-1) ∧ 0 ≤ t.sslEnd.getD (-1))) ∧
      0 ≤ (buildHarTimings (some t) rm).blocked ∧
      0 ≤ (buildHarTimings (some t) rm).send ∧
      0 ≤ (buildHarTimings (some t) rm).wait) ∧
    (∀ (p : Pending) (rts fts : ℚ), p.responseTimestamp = some rts →
      p.finishedTimestamp = some fts → rts ≠ 0 → fts ≠ 0 → rts < fts →
      (buildEntry p).timings.receive = roundTo 3 ((fts - rts) * 1000)) := by
  refine ⟨?_, ?_, ?_⟩
  · intro rm
    exact ⟨rfl, rfl, rfl, rfl, rfl, rfl⟩
  · intro t rm
    refine ⟨?_, ?_, ?_, ?_, ?_, ?_⟩
    · exact timingPhase_eq_neg_one_iff _ _
    · exact timingPhase_eq_neg_one_iff _ _
    · exact timingPhase_eq_neg_one_iff _ _
    · exact roundTo_nonneg (le_max_right _ _)
    · exact roundTo_nonneg (le_max_right _ _)
    · exact roundTo_nonneg (le_max_right _ _)
  · intro p rts fts h1 h2 h3 h4 h5
    show (buildHarTimings p.timing _).receive = _
    cases ht : p.timing <;>
      simp [buildHarTimings, h1, h2, h3, h4, h5]

/-- A timing object whose start markers are all unavailable. -/
def sampleTimingNoStarts : ResourceTiming := { sendStart := some (-1) }

/-- A pending entry whose loadingFinished timestamp precedes its
responseReceived timestamp. -/
def samplePendingBadOrder : Pending :=
  { mkPending "u" "GET" [] none 1 "" 1 with
      responseTimestamp := some 2, finishedTimestamp := some 1 }

/-- A pending entry with both timestamps available, finish 2 s later. -/
def samplePendingRecv : Pending :=
  { mkPending "u" "GET" [] none 1 "" 1 with
      responseTimestamp := some 1, finishedTimestamp := some 3 }

/-- Counterexample for C9 as stated: with a timing object present whose
start markers are all unavailable (dns and connect absent, sendStart -1),
`blocked` is 0, not the -1 the claim requires; and with the finish
timestamp earlier than the response timestamp (both available), `receive`
is 0 rather than the (negative) wall-clock gap. -/
theorem claimC9_counterexample :
    (buildHarTimings (some sampleTimingNoStarts) none).blocked = 0 ∧
    sampleTimingNoStarts.dnsStart.getD (-1) < 0 ∧
    sampleTimingNoStarts.connectStart.getD (-1) < 0 ∧
    sampleTimingNoStarts.sendStart.getD 0 < 0 ∧
    (0 : ℚ) ≠ -1 ∧
    (buildEntry samplePendingBadOrder).timings.receive = 0 ∧
    ((1 : ℚ) - 2) * 1000 ≠ 0 := by
  refine ⟨?_, by norm_num [sampleTimingNoStarts], by norm_num [sampleTimingNoStarts],
    by norm_num [sampleTimingNoStarts], by norm_num, ?_, by norm_num⟩
  · simp [buildHarTimings, sampleTimingNoStarts, roundTo]
  · simp [buildEntry, buildHarTimings, samplePendingBadOrder, mkPending]

/-- Witness for C9: the receive override at concrete timestamps. -/
theorem claimC9_witness :
    samplePendingRecv.responseTimestamp = some 1 ∧
    samplePendingRecv.finishedTimestamp = some 3 ∧
    (1 : ℚ) ≠ 0 ∧ (3 : ℚ) ≠ 0 ∧ (1 : ℚ) < 3 ∧
    (buildEntry samplePendingRecv).timings.receive = roundTo 3 ((3 - 1) * 1000) := by
  refine ⟨rfl, rfl, by norm_num, by norm_num, by norm_num, ?_⟩
  exact claimC9.2.2 samplePendingRecv 1 3 rfl rfl (by norm_num) (by norm_num) (by norm_num)

end Pydoll

namespace Pydoll

/-- C2: for every entry finalized by `loadingFinished`, response
`bodySize` follows the precedence: 0 on effective status 304; else the
accumulated `dataReceived` total when positive (whatever
`loadingFinished.encodedDataLength` says); else the decoded content size
when positive; else -1. -/
theorem claimC2 : ∀ (s : RecState) (R : String) (p : Pending) (cs : List ℤ)
    (ts edl : ℚ) (body : String) (b64 : Bool),
    alistLookup R s.pending = some p →
    alistLookup R s.sizes = none →
    ∃ e : HarEntry,
      (step (run s (cs.map (fun c => NetEvent.dataReceived R c)))
        (.loadingFinished R ts edl body b64)).entries = s.entries ++ [e] ∧
      e.response.bodySize =
        (if e.response.status = 304 then 0
         else if (if cs = [] then (-1 : ℤ) else cs.sum) > 0 then
           (if cs = [] then (-1 : ℤ) else cs.sum)
         else if e.response.content.size > 0 then e.response.content.size
         else -1) := by
  intro s R p cs ts edl body b64 hp hsz
  have hpend : (run s (cs.map (fun c => NetEvent.dataReceived R c))).pending = s.pending :=
    dataRun_pending R cs s
  have hent : (run s (cs.map (fun c => NetEvent.dataReceived R c))).entries = s.entries :=
    dataRun_entries R cs s
  have hszs := dataRun_sizes_none R cs s hsz
  have hbb : ((alistLookup R (run s (cs.map (fun c => NetEvent.dataReceived R c))).sizes).getD
      (-1) : ℤ) = (if cs = [] then (-1 : ℤ) else cs.sum) := by
    cases cs with
    | nil => rw [hszs]; rfl
    | cons c cs' =>
      rw [hszs]
      simp [List.sum_cons]
  refine ⟨buildEntry { p with
    transferSize := some edl
    finishedTimestamp := some ts
    bodyBytes := some ((alistLookup R
      (run s (cs.map (fun c => NetEvent.dataReceived R c))).sizes).getD (-1))
    responseBody := some body
    responseBodyBase64 := some b64 }, ?_, ?_⟩
  · simp [step, onLoadingFinished, hpend, hp, hent]
  · rw [buildEntry_response_bodySize]
    simp only [hbb, Option.getD_some]

/-- A recorder state with one freshly created pending request (id "1"). -/
def sampleC2State : RecState :=
  step (initState none) (.requestWillBeSent "1" "u" "GET" [] none 5 1 "" none)

/-- Witness for C2 at a concrete trace: two data chunks of 700 and 800
bytes, then loadingFinished with a differing encodedDataLength of 999. -/
theorem claimC2_witness :
    alistLookup "1" sampleC2State.pending = some (mkPending "u" "GET" [] none 5 "" 1) ∧
    alistLookup "1" sampleC2State.sizes = none ∧
    ∃ e : HarEntry,
      (step (run sampleC2State (([700, 800] : List ℤ).map
          (fun c => NetEvent.dataReceived "1" c)))
        (.loadingFinished "1" 2 999 "" false)).entries = sampleC2State.entries ++ [e] ∧
      e.response.bodySize =
        (if e.response.status = 304 then 0
         else if (if ([700, 800] : List ℤ) = [] then (-1 : ℤ) else ([700, 800] : List ℤ).sum)
             > 0 then
           (if ([700, 800] : List ℤ) = [] then (-1 : ℤ) else ([700, 800] : List ℤ).sum)
         else if e.response.content.size > 0 then e.response.content.size
         else -1) := by
  refine ⟨rfl, rfl, ?_⟩
  exact claimC2 sampleC2State "1" (mkPending "u" "GET" [] none 5 "" 1) [700, 800]
    2 999 "" false rfl rfl

end Pydoll

namespace Pydoll

/-- The conclusion of C1 for a redirecting `requestWillBeSent`: exactly one
terminal entry is appended, carrying the old pending url and the redirect
response's status and headers; exactly one live pending entry remains for
the id, describing the new url; and every id keeps at most one live
pending entry. -/
def claimC1Result (s : RecState) (R url method : String) (headers : Headers)
    (postData : Option String) (wallTime ts : ℚ) (rtype : String) (r : CDPResponse)
    (p : Pending) : Prop :=
  (∃ e : HarEntry,
    (step s (.requestWillBeSent R url method headers postData wallTime ts rtype
      (some r))).entries = s.entries ++ [e] ∧
    e.request.url = p.url ∧ e.response.status = r.status ∧
    e.response.headers = headersDictToList (r.headers.getD [])) ∧
  alistLookup R (step s (.requestWillBeSent R url method headers postData wallTime ts rtype
      (some r))).pending = some (mkPending url method headers postData wallTime rtype ts) ∧
  filterKey R (step s (.requestWillBeSent R url method headers postData wallTime ts rtype
      (some r))).pending = [(R, mkPending url method headers postData wallTime rtype ts)] ∧
  ∀ id : String, (filterKey id (step s (.requestWillBeSent R url method headers postData
      wallTime ts rtype (some r))).pending).length ≤ 1

/-- C1 (amended): a `requestWillBeSent` carrying a redirectResponse for an
id with a live pending entry finalizes it as exactly one terminal entry
whose status and headers come from the redirectResponse — provided no
`responseReceivedExtraInfo` merged an overriding status code or extra
headers first — and replaces it with a single fresh pending entry for the
new url; each id always keeps at most one live pending entry. -/
theorem claimC1 : ∀ (s : RecState) (R url method : String) (headers : Headers)
    (postData : Option String) (wallTime ts : ℚ) (rtype : String) (r : CDPResponse)
    (p : Pending),
    alistLookup R s.pending = some p →
    s.resourceTypes = none →
    p.responseHeadersExtra = none →
    p.extraStatusCode = none →
    keysNodup s.pending →
    claimC1Result s R url method headers postData wallTime ts rtype r p := by
  intro s R url method headers postData wallTime ts rtype r p hp hrt hhx hsx hnd
  have hstep : step s (.requestWillBeSent R url method headers postData wallTime ts rtype
      (some r)) =
      { s with
        pending := alistSet R (mkPending url method headers postData wallTime rtype ts)
          (alistErase R s.pending)
        sizes := alistErase R s.sizes
        entries := s.entries ++ [buildEntry { p with
          bodyBytes := some ((alistLookup R s.sizes).getD (-1))
          status := some r.status
          statusText := some r.statusText
          responseHeaders := some (r.headers.getD [])
          mimeType := some r.mimeType
          protocol := some (r.protocol.getD "")
          timing := r.timing }] } := by
    simp [step, onRequestWillBeSent, finalizeRedirectEntry, hrt, hp]
  refine ⟨⟨_, by rw [hstep], ?_, ?_, ?_⟩, ?_, ?_, ?_⟩
  · exact buildEntry_request_url _
  · rw [buildEntry_response_status]
    simp [hsx]
  · rw [buildEntry_response_headers]
    simp [responseHeadersUsed, hhx]
  · rw [hstep]
    exact alistLookup_set_self _ _ _
  · rw [hstep]
    exact filterKey_set_self _ _ _ (keysNodup_erase _ _ hnd)
  · intro id
    rw [hstep]
    exact filterKey_length_le_one _ _ (keysNodup_set _ _ _ (keysNodup_erase _ _ hnd))

/-- A recorder state with one freshly created pending request for url A. -/
def sampleC1State : RecState :=
  step (initState none) (.requestWillBeSent "1" "http://a" "GET" [] none 5 1 "" none)

/-- Witness for C1: a concrete 301 redirect from url A to url B. -/
theorem claimC1_witness :
    alistLookup "1" sampleC1State.pending = some (mkPending "http://a" "GET" [] none 5 "" 1) ∧
    sampleC1State.resourceTypes = none ∧
    (mkPending "http://a" "GET" [] none 5 "" 1).responseHeadersExtra = none ∧
    (mkPending "http://a" "GET" [] none 5 "" 1).extraStatusCode = none ∧
    keysNodup sampleC1State.pending ∧
    claimC1Result sampleC1State "1" "http://b" "GET" [] none 6 2 ""
      { status := 301, statusText := "Moved Permanently", mimeType := "",
        headers := some [("Location", "http://b")] }
      (mkPending "http://a" "GET" [] none 5 "" 1) := by
  refine ⟨rfl, rfl, rfl, rfl, by unfold keysNodup; decide, ?_⟩
  exact claimC1 sampleC1State "1" "http://b" "GET" [] none 6 2 ""
    { status := 301, statusText := "Moved Permanently", mimeType := "",
      headers := some [("Location", "http://b")] }
    (mkPending "http://a" "GET" [] none 5 "" 1) rfl rfl rfl rfl (by unfold keysNodup; decide)

/-- Counterexample for C1 as stated: a `responseReceivedExtraInfo` with an
authoritative status code 200 arrives before the redirect; the finalized
redirect entry then carries status 200, not the redirectResponse's 301. -/
theorem claimC1_counterexample :
    ((run (initState none)
      [.requestWillBeSent "1" "http://a" "GET" [] none 1 1 "" none,
       .responseReceivedExtraInfo "1" [] (some 200),
       .requestWillBeSent "1" "http://b" "GET" [] none 2 2 ""
         (some { status := 301, statusText := "Moved Permanently", mimeType := "" })]).entries.map
      (fun e => e.response.status)) = [200] ∧ (200 : ℤ) ≠ 301 := by
  exact ⟨rfl, by decide⟩

end Pydoll

namespace Pydoll

lemma run_filter_single (R url method : String) (headers : Headers)
    (postData : Option String) (wallTime ts : ℚ) (rtype : String) :
    ∀ (es : List NetEvent) (s : RecState),
    keysNodup s.pending → s.resourceTypes = none →
    es.filter (fun e => e.requestIdOf == R)
      = [.requestWillBeSent R url method headers postData wallTime ts rtype none] →
    filterKey R (run s es).pending
      = [(R, mkPending url method headers postData wallTime rtype ts)] := by
  intro es
  induction es with
  | nil =>
    intro s _ _ h
    simp at h
  | cons e es ih =>
    intro s hnd hrt h
    rw [List.filter_cons] at h
    by_cases he : (e.requestIdOf == R) = true
    · rw [if_pos he] at h
      rw [List.cons_eq_cons] at h
      obtain ⟨he1, hrest⟩ := h
      subst he1
      rw [run, List.foldl_cons, ← run]
      rw [filterKey_pending_run_ne R es _ ?_]
      · exact filterKey_pending_requestWillBeSent s R url method headers postData
          wallTime ts rtype hrt hnd
      · intro e' he'
        have hne := List.filter_eq_nil_iff.mp hrest e' he'
        simpa using hne
    · rw [if_neg he] at h
      rw [run, List.foldl_cons, ← run]
      exact ih (step s e) (keysNodup_pending_step s e hnd)
        (by rw [step_resourceTypes]; exact hrt) h

/-- C4: after `stop()`, every request that saw only a plain
`requestWillBeSent` is flushed as exactly one entry with status 0 and
statusText `(pending)`, and the pending table is empty — nothing is
silently dropped. -/
theorem claimC4 : ∀ (es : List NetEvent) (R url method : String) (headers : Headers)
    (postData : Option String) (wallTime ts : ℚ) (rtype : String),
    es.filter (fun e => e.requestIdOf == R)
      = [.requestWillBeSent R url method headers postData wallTime ts rtype none] →
    filterKey R (run (initState none) es).pending
      = [(R, mkPending url method headers postData wallTime rtype ts)] ∧
    alistLookup R (run (initState none) es).pending
      = some (mkPending url method headers postData wallTime rtype ts) ∧
    (flushPendingFn (run (initState none) es)).pending = [] ∧
    (flushPendingFn (run (initState none) es)).entries
      = (run (initState none) es).entries ++
        (run (initState none) es).pending.map (fun kp => buildEntry (flushDefaults kp.2)) ∧
    (buildEntry (flushDefaults (mkPending url method headers postData wallTime
      rtype ts))).response.status = 0 ∧
    (buildEntry (flushDefaults (mkPending url method headers postData wallTime
      rtype ts))).response.statusText = "(pending)" := by
  intro es R url method headers postData wallTime ts rtype h
  have hfk := run_filter_single R url method headers postData wallTime ts rtype es
    (initState none) (by simp [initState, keysNodup]) rfl h
  refine ⟨hfk, ?_, rfl, rfl, rfl, rfl⟩
  rw [alistLookup_eq_head_filterKey, hfk]
  rfl

/-- Witness for C4: a trace with one plain request for id "1" and an
unrelated finished request for id "2". -/
theorem claimC4_witness :
    ([.requestWillBeSent "1" "http://a" "GET" [] none 5 1 "" none,
      .requestWillBeSent "2" "http://c" "GET" [] none 6 1 "" none,
      .loadingFinished "2" 2 10 "" false] : List NetEvent).filter
        (fun e => e.requestIdOf == "1")
      = [.requestWillBeSent "1" "http://a" "GET" [] none 5 1 "" none] ∧
    filterKey "1" (run (initState none)
      [.requestWillBeSent "1" "http://a" "GET" [] none 5 1 "" none,
       .requestWillBeSent "2" "http://c" "GET" [] none 6 1 "" none,
       .loadingFinished "2" 2 10 "" false]).pending
      = [("1", mkPending "http://a" "GET" [] none 5 "" 1)] ∧
    (flushPendingFn (run (initState none)
      [.requestWillBeSent "1" "http://a" "GET" [] none 5 1 "" none,
       .requestWillBeSent "2" "http://c" "GET" [] none 6 1 "" none,
       .loadingFinished "2" 2 10 "" false])).pending = [] ∧
    (buildEntry (flushDefaults (mkPending "http://a" "GET" [] none 5 "" 1))).response.status
      = 0 ∧
    (buildEntry (flushDefaults (mkPending "http://a" "GET" [] none 5 ""
      1))).response.statusText = "(pending)" := by
  have h := claimC4 [.requestWillBeSent "1" "http://a" "GET" [] none 5 1 "" none,
      .requestWillBeSent "2" "http://c" "GET" [] none 6 1 "" none,
      .loadingFinished "2" 2 10 "" false] "1" "http://a" "GET" [] none 5 1 "" (by decide)
  exact ⟨by decide, h.1, h.2.2.1, h.2.2.2.2.1, h.2.2.2.2.2⟩

end Pydoll

namespace Pydoll

lemma attempt_eq (findE : FindOracle) (findAllE : FindAllOracle) (findAll : Bool) :
    ∀ (initSegs : List (By × String)) (ctx : ℕ) (lastSeg : By × String),
    attemptFindAcrossIframes findE findAllE ctx findAll (initSegs ++ [lastSeg]) =
      (match walkIframeContexts findE ctx initSegs with
       | some c => finalSegmentSearch findE findAllE c lastSeg.1 lastSeg.2 findAll
       | none => .notFound) := by
  intro initSegs
  induction initSegs with
  | nil =>
    intro ctx lastSeg
    obtain ⟨b, sel⟩ := lastSeg
    simp [attemptFindAcrossIframes, walkIframeContexts, finalSegmentSearch]
  | cons s0 rest ih =>
    intro ctx lastSeg
    obtain ⟨b0, sel0⟩ := s0
    rw [List.cons_append]
    cases hr : rest ++ [lastSeg] with
    | nil => exact absurd hr (by simp)
    | cons seg rest2 =>
      cases hfe : findE ctx b0 sel0 with
      | none => simp [attemptFindAcrossIframes, walkIframeContexts, hfe]
      | some el =>
        by_cases hif : el.isIframe = true
        · simp only [attemptFindAcrossIframes, hfe, hif, if_true]
          rw [← hr, ih]
          simp [walkIframeContexts, hfe, hif]
        · simp [attemptFindAcrossIframes, walkIframeContexts, hfe, hif]

/-- C6: a multi-segment iframe-crossing walk fails as a whole — returning
`None` at the attempt level, and `[]` / `None` (or `ElementNotFound`) at
the wrapper level — whenever any non-final segment has no match or
matches a non-iframe element; only when every non-final segment resolves
to an iframe boundary does the final segment run the single-element or
all-elements search requested. -/
theorem claimC6 :
    (∀ (findE : FindOracle) (findAllE : FindAllOracle) (ctx : ℕ) (findAll : Bool)
      (initSegs : List (By × String)) (lastSeg : By × String),
      walkIframeContexts findE ctx initSegs = none →
      attemptFindAcrossIframes findE findAllE ctx findAll (initSegs ++ [lastSeg])
        = .notFound) ∧
    (∀ (findE : FindOracle) (findAllE : FindAllOracle) (ctx : ℕ) (findAll : Bool)
      (initSegs : List (By × String)) (lastSeg : By × String) (c : ℕ),
      walkIframeContexts findE ctx initSegs = some c →
      attemptFindAcrossIframes findE findAllE ctx findAll (initSegs ++ [lastSeg])
        = finalSegmentSearch findE findAllE c lastSeg.1 lastSeg.2 findAll) ∧
    (∀ (findE : FindOracle) (findAllE : FindAllOracle) (ctx : ℕ)
      (segs : List (By × String)) (findAll : Bool),
      attemptFindAcrossIframes findE findAllE ctx findAll segs = .notFound →
      findAcrossIframes findE findAllE ctx segs findAll false
        = .ok (if findAll then .many [] else .notFound) ∧
      findAcrossIframes findE findAllE ctx segs findAll true
        = .error .elementNotFound) := by
  refine ⟨?_, ?_, ?_⟩
  · intro findE findAllE ctx findAll initSegs lastSeg h
    rw [attempt_eq, h]
  · intro findE findAllE ctx findAll initSegs lastSeg c h
    rw [attempt_eq, h]
  · intro findE findAllE ctx segs findAll h
    constructor <;> simp [findAcrossIframes, h]

/-- A DOM oracle whose every single-element search returns the same
non-iframe element. -/
def sampleFindOracle : FindOracle :=
  fun _ _ _ => some { isIframe := false, contentCtx := 0, objectId := 5 }

/-- A DOM oracle whose every all-elements search returns nothing. -/
def sampleFindAllOracle : FindAllOracle := fun _ _ _ => []

/-- Witness for C6: a 2-segment walk whose first segment matches a
non-iframe element fails as a whole at both levels. -/
theorem claimC6_witness :
    walkIframeContexts sampleFindOracle 0 [(By.cssSelector, "div")] = none ∧
    attemptFindAcrossIframes sampleFindOracle sampleFindAllOracle 0 false
      ([(By.cssSelector, "div")] ++ [(By.cssSelector, "p")]) = .notFound ∧
    findAcrossIframes sampleFindOracle sampleFindAllOracle 0
      ([(By.cssSelector, "div")] ++ [(By.cssSelector, "p")]) false false = .ok .notFound ∧
    findAcrossIframes sampleFindOracle sampleFindAllOracle 0
      ([(By.cssSelector, "div")] ++ [(By.cssSelector, "p")]) true false = .ok (.many []) ∧
    findAcrossIframes sampleFindOracle sampleFindAllOracle 0
      ([(By.cssSelector, "div")] ++ [(By.cssSelector, "p")]) false true
      = .error .elementNotFound := by
  have h1 : walkIframeContexts sampleFindOracle 0 [(By.cssSelector, "div")] = none := rfl
  have h2 := claimC6.1 sampleFindOracle sampleFindAllOracle 0 false
    [(By.cssSelector, "div")] (By.cssSelector, "p") h1
  have h2' := claimC6.1 sampleFindOracle sampleFindAllOracle 0 true
    [(By.cssSelector, "div")] (By.cssSelector, "p") h1
  have h3 := claimC6.2.2 sampleFindOracle sampleFindAllOracle 0
    ([(By.cssSelector, "div")] ++ [(By.cssSelector, "p")]) false h2
  have h4 := claimC6.2.2 sampleFindOracle sampleFindAllOracle 0
    ([(By.cssSelector, "div")] ++ [(By.cssSelector, "p")]) true h2'
  exact ⟨h1, h2, h3.1, h4.1, h3.2⟩

end Pydoll

namespace Pydoll
/-- The sort key order on entries: ascending `startedDateTime`. -/
def entryLE (a b : HarEntry) : Prop := a.startedDateTime ≤ b.startedDateTime

/-- Strict version of `entryLE`. -/
def entryLT (a b : HarEntry) : Prop := a.startedDateTime < b.startedDateTime

lemma insertEntry_perm (e : HarEntry) (l : List HarEntry) :
    List.Perm (insertEntry e l) (e :: l) := by
  induction l with
  | nil => exact List.Perm.refl _
  | cons f rest ih =>
    unfold insertEntry
    split
    · exact (List.Perm.cons f ih).trans (List.Perm.swap e f rest)
    · exact List.Perm.refl _

lemma foldl_insert_perm : ∀ (l acc : List HarEntry),
    List.Perm (l.foldl (fun a e => insertEntry e a) acc) (acc ++ l) := by
  intro l
  induction l with
  | nil => intro acc; simp
  | cons e rest ih =>
    intro acc
    rw [List.foldl_cons]
    refine ((ih _).trans ?_)
    refine ((insertEntry_perm e acc).append_right rest).trans ?_
    exact List.perm_middle.symm

lemma sortEntries_perm (l : List HarEntry) : List.Perm (sortEntries l) l := by
  have h := foldl_insert_perm l []
  simpa [sortEntries] using h

lemma insertEntry_pairwise (e : HarEntry) (l : List HarEntry)
    (h : l.Pairwise entryLE) : (insertEntry e l).Pairwise entryLE := by
  induction l with
  | nil => simp [insertEntry]
  | cons f rest ih =>
    rw [List.pairwise_cons] at h
    unfold insertEntry
    split
    case isTrue hle =>
      rw [List.pairwise_cons]
      refine ⟨?_, ih h.2⟩
      intro a ha
      rcases List.mem_cons.mp ((insertEntry_perm e rest).mem_iff.mp ha) with rfl | ha'
      · exact hle
      · exact h.1 a ha'
    case isFalse hle =>
      rw [List.pairwise_cons]
      refine ⟨?_, List.pairwise_cons.mpr h⟩
      intro a ha
      have hef : entryLE e f := le_of_not_le hle
      rcases List.mem_cons.mp ha with rfl | ha'
      · exact hef
      · exact le_trans hef (h.1 a ha')

lemma foldl_insert_pairwise : ∀ (l acc : List HarEntry),
    acc.Pairwise entryLE →
    (l.foldl (fun a e => insertEntry e a) acc).Pairwise entryLE := by
  intro l
  induction l with
  | nil => intro acc h; exact h
  | cons e rest ih =>
    intro acc h
    rw [List.foldl_cons]
    exact ih _ (insertEntry_pairwise e acc h)

lemma sortEntries_pairwise (l : List HarEntry) : (sortEntries l).Pairwise entryLE :=
  foldl_insert_pairwise l [] List.Pairwise.nil

lemma pairwise_entryLT_of_nodup (l : List HarEntry) (hle : l.Pairwise entryLE)
    (hnd : (l.map (fun e => e.startedDateTime)).Nodup) : l.Pairwise entryLT := by
  have hne : l.Pairwise (fun a b => a.startedDateTime ≠ b.startedDateTime) :=
    List.pairwise_map.mp hnd
  exact (hle.and hne).imp (fun h => lt_of_le_of_ne h.1 h.2)

lemma sortEntries_eq_of_perm (l l' : List HarEntry) (h : List.Perm l l')
    (hnd : (l.map (fun e => e.startedDateTime)).Nodup) :
    sortEntries l = sortEntries l' := by
  haveI : IsAntisymm HarEntry entryLT := ⟨fun a b h1 h2 => (lt_asymm h1 h2).elim⟩
  have p1 := sortEntries_perm l
  have p2 := sortEntries_perm l'
  have hnd1 : ((sortEntries l).map (fun e => e.startedDateTime)).Nodup :=
    (List.Perm.nodup_iff (p1.map _)).mpr hnd
  have hnd' : (l'.map (fun e => e.startedDateTime)).Nodup :=
    (List.Perm.nodup_iff (h.map _)).mp hnd
  have hnd2 : ((sortEntries l').map (fun e => e.startedDateTime)).Nodup :=
    (List.Perm.nodup_iff (p2.map _)).mpr hnd'
  exact List.eq_of_perm_of_sorted (p1.trans (h.trans p2.symm))
    (pairwise_entryLT_of_nodup _ (sortEntries_pairwise l) hnd1)
    (pairwise_entryLT_of_nodup _ (sortEntries_pairwise l') hnd2)

/-- C8 (amended): `entries` and `to_dict()` always return the recorded
entries sorted ascending by `startedDateTime` (a permutation of them);
when all `startedDateTime` values are distinct the output is invariant
under permutation of insertion order — ties, however, preserve insertion
order (the sort is stable), so full permutation-invariance fails. -/
theorem claimC8 : ∀ (s : RecState) (v : String),
    captureEntries s = sortEntries s.entries ∧
    (captureToDict s v).entries = sortEntries s.entries ∧
    (captureEntries s).Pairwise entryLE ∧
    List.Perm (captureEntries s) s.entries ∧
    ((s.entries.map (fun e => e.startedDateTime)).Nodup →
      ∀ s' : RecState, List.Perm s.entries s'.entries →
        captureEntries s = captureEntries s') := by
  intro s v
  refine ⟨rfl, rfl, sortEntries_pairwise _, sortEntries_perm _, ?_⟩
  intro hnd s' hperm
  exact sortEntries_eq_of_perm _ _ hperm hnd

/-- First sample entry: url A, wallTime 5. -/
def sampleEntryA : HarEntry := buildEntry (mkPending "http://a" "GET" [] none 5 "" 1)

/-- Second sample entry: url B, same wallTime 5 (same startedDateTime). -/
def sampleEntryB : HarEntry := buildEntry (mkPending "http://b" "GET" [] none 5 "" 1)

/-- Third sample entry: url C, wallTime 6 (distinct startedDateTime). -/
def sampleEntryC : HarEntry := buildEntry (mkPending "http://c" "GET" [] none 6 "" 1)

/-- Counterexample for C8 as stated: two entries share a
`startedDateTime`; swapping their insertion order permutes the input but
changes the (stable) sorted output, so the export is not invariant under
permutation of insertion order. -/
theorem claimC8_counterexample :
    sampleEntryA.startedDateTime = sampleEntryB.startedDateTime ∧
    List.Perm [sampleEntryA, sampleEntryB] [sampleEntryB, sampleEntryA] ∧
    sortEntries [sampleEntryA, sampleEntryB] ≠ sortEntries [sampleEntryB, sampleEntryA] := by
  have hsdt : sampleEntryA.startedDateTime = sampleEntryB.startedDateTime := rfl
  refine ⟨hsdt, List.Perm.swap sampleEntryB sampleEntryA [], ?_⟩
  have hA : sortEntries [sampleEntryA, sampleEntryB] = [sampleEntryA, sampleEntryB] := by
    simp [sortEntries, insertEntry, hsdt]
  have hB : sortEntries [sampleEntryB, sampleEntryA] = [sampleEntryB, sampleEntryA] := by
    simp [sortEntries, insertEntry, ← hsdt]
  rw [hA, hB]
  intro hcontra
  have hab : sampleEntryA = sampleEntryB := (List.cons_eq_cons.mp hcontra).1
  have hurl : sampleEntryA.request.url = sampleEntryB.request.url := by rw [hab]
  rw [sampleEntryA, sampleEntryB, buildEntry_request_url, buildEntry_request_url] at hurl
  simp [mkPending] at hurl

/-- Witness for C8 with distinct startedDateTime values: sorting is
invariant under swapping the insertion order. -/
theorem claimC8_witness :
    captureEntries { entries := [sampleEntryC, sampleEntryA] }
      = sortEntries [sampleEntryC, sampleEntryA] ∧
    (captureEntries { entries := [sampleEntryC, sampleEntryA] }).Pairwise entryLE ∧
    List.Perm (captureEntries { entries := [sampleEntryC, sampleEntryA] })
      [sampleEntryC, sampleEntryA] ∧
    ([sampleEntryC, sampleEntryA].map (fun e => e.startedDateTime)).Nodup ∧
    captureEntries { entries := [sampleEntryC, sampleEntryA] }
      = captureEntries { entries := [sampleEntryA, sampleEntryC] } := by
  have hnd : ([sampleEntryC, sampleEntryA].map (fun e => e.startedDateTime)).Nodup := by
    decide
  have h := claimC8 { entries := [sampleEntryC, sampleEntryA] } "v"
  exact ⟨h.1, h.2.2.1, h.2.2.2.1, hnd,
    h.2.2.2.2 hnd { entries := [sampleEntryA, sampleEntryC] }
      (List.Perm.swap sampleEntryA sampleEntryC [])⟩

end Pydoll
